import Mathlib

/-!
Verification of the tamper-evident audit & compliance ledger implemented in
`src/agents/audit_orchestrator.py` (class `AuditOrchestrator`).

The Python code is shallowly embedded below:

* JSON values are modelled by the mutual inductive `Json` / `JsonList` /
  `JsonFields`; `json.dumps(x, sort_keys=True)` is modelled by
  `Json.dumpsSorted` (recursively sorting every object's fields by key and
  then rendering — sorting first and then rendering is extensionally the
  same as sorting while rendering, which is what the Python library does).
* The orchestrator's mutable state (`sequence_counter`, the in-memory cache
  `audit_logs`, and the persisted `audit_trail.jsonl` file) is modelled by
  `LedgerState`, passed explicitly through each operation.
* External effects are modelled as explicit inputs: `uuid`/`datetime` values
  are parameters (`log_id`, `timestamp`), the RSA sign/verify primitives of
  the `cryptography` library are parameters (`SignOutcome`, `RsaVerify`),
  and `hashlib.sha256(...).hexdigest()` is an arbitrary parameter
  `hashFn : String → String` (every theorem below holds for an arbitrary
  hash function, so nothing depends on properties of SHA-256 itself).
* Fallible Python code (`try`/`except`, raised exceptions) is modelled with
  `Except`/`Option` or with explicit outcome parameters.
-/

namespace AuditOrch

/-! ## JSON values and `json.dumps(·, sort_keys=True)` -/

mutual

/-- A JSON value, as produced by the orchestrator (strings, integers,
booleans, null, arrays, objects).  Objects keep their fields in insertion
order, like Python dicts. -/
inductive Json where
  | str (s : String)
  | num (n : Int)
  | bool (b : Bool)
  | null
  | arr (items : JsonList)
  | obj (fields : JsonFields)

/-- A list of JSON values (elements of a JSON array). -/
inductive JsonList where
  | nil
  | cons (hd : Json) (tl : JsonList)

/-- The fields of a JSON object, in insertion order. -/
inductive JsonFields where
  | nil
  | cons (key : String) (value : Json) (tl : JsonFields)

end

/-- Append two field lists (used to model adding the `hash` and `signature`
keys to an already-built entry dict). -/
def JsonFields.append : JsonFields → JsonFields → JsonFields
  | .nil, gs => gs
  | .cons k v tl, gs => .cons k v (tl.append gs)

/-- The keys of a field list. -/
def JsonFields.keys : JsonFields → List String
  | .nil => []
  | .cons k _ tl => k :: tl.keys

/-- Remove every binding of key `k` (models `dict.pop(k, None)`; the dicts
built by the orchestrator have distinct keys, so at most one binding is
removed). -/
def JsonFields.eraseKey (k : String) : JsonFields → JsonFields
  | .nil => .nil
  | .cons k0 v tl => if k0 = k then tl.eraseKey k else .cons k0 v (tl.eraseKey k)

/-- Stable insertion of a field into a key-sorted field list (used to model
`sort_keys=True`: Python's sort is ascending and stable). -/
def JsonFields.insertSorted (k : String) (v : Json) : JsonFields → JsonFields
  | .nil => .cons k v .nil
  | .cons k0 v0 tl =>
    if k < k0 then .cons k v (.cons k0 v0 tl)
    else .cons k0 v0 (tl.insertSorted k v)

/-- Sort a field list by key, ascending and stable. -/
def JsonFields.sortByKey : JsonFields → JsonFields
  | .nil => .nil
  | .cons k v tl => (tl.sortByKey).insertSorted k v

/-- Escape one character of a JSON string (the escapes `json.dumps` emits
for the characters appearing in this development). -/
def escapeChar (c : Char) : String :=
  if c = '"' then "\\\""
  else if c = '\\' then "\\\\"
  else if c = '\n' then "\\n"
  else String.singleton c

/-- Render a JSON string literal. -/
def renderString (s : String) : String :=
  "\"" ++ String.join (s.toList.map escapeChar) ++ "\""

mutual

/-- Recursively sort every object's fields by key (the effect of
`sort_keys=True` on the emitted text, applied before rendering). -/
def Json.sortKeys : Json → Json
  | .str s => .str s
  | .num n => .num n
  | .bool b => .bool b
  | .null => .null
  | .arr xs => .arr xs.sortKeysList
  | .obj fs => .obj fs.sortKeysFields.sortByKey

/-- Sort keys inside every element of a JSON array. -/
def JsonList.sortKeysList : JsonList → JsonList
  | .nil => .nil
  | .cons x tl => .cons x.sortKeys tl.sortKeysList

/-- Sort keys inside every value of a field list. -/
def JsonFields.sortKeysFields : JsonFields → JsonFields
  | .nil => .nil
  | .cons k v tl => .cons k v.sortKeys tl.sortKeysFields

end

mutual

/-- Render a JSON value with Python's default separators
(`", "` and `": "`), without reordering fields. -/
def Json.render : Json → String
  | .str s => renderString s
  | .num n => toString n
  | .bool b => if b then "true" else "false"
  | .null => "null"
  | .arr xs => "[" ++ xs.renderList ++ "]"
  | .obj fs => "\x7b" ++ fs.renderFields ++ "\x7d"

/-- Render the elements of a JSON array. -/
def JsonList.renderList : JsonList → String
  | .nil => ""
  | .cons x .nil => x.render
  | .cons x (.cons y tl) => x.render ++ ", " ++ (JsonList.cons y tl).renderList

/-- Render the fields of a JSON object. -/
def JsonFields.renderFields : JsonFields → String
  | .nil => ""
  | .cons k v .nil => renderString k ++ ": " ++ v.render
  | .cons k v (.cons k1 v1 tl) =>
    renderString k ++ ": " ++ v.render ++ ", " ++ (JsonFields.cons k1 v1 tl).renderFields

end

/-- Model of `json.dumps(x, sort_keys=True)`: sort every object's fields by
key, then render. -/
def Json.dumpsSorted (j : Json) : String :=
  j.sortKeys.render

/-! ## Log entries and the ledger state

`_create_log_entry` builds the entry dict with the keys below in insertion
order; `previous_hash` is only added when a previous entry is found, and
`hash` / `signature` are appended afterwards. -/

/-- The fields of a log entry other than `hash` and `signature` (the part of
the dict that is serialized and hashed in `_create_log_entry`, lines
599-641 of `audit_orchestrator.py`). -/
structure LogEntryContent where
  log_id : String
  timestamp : String
  sequence : Int
  action_type : String
  actor_id : String
  target : String
  result : String
  details : JsonFields
  context : JsonFields
  previous_hash : Option String

/-- A complete log entry: the hashed content plus the `hash` and `signature`
keys added at the end of `_create_log_entry`.  A signing failure is recorded
as the empty-string signature (see `signHash`). -/
structure LogEntry where
  content : LogEntryContent
  hash : String
  signature : String

/-- The entry dict without `hash`/`signature`, as a JSON object's field list
in the insertion order used by `_create_log_entry`. -/
def LogEntryContent.toFields (c : LogEntryContent) : JsonFields :=
  .cons "log_id" (.str c.log_id) (.cons "timestamp" (.str c.timestamp)
    (.cons "sequence" (.num c.sequence) (.cons "action_type" (.str c.action_type)
      (.cons "actor_id" (.str c.actor_id) (.cons "target" (.str c.target)
        (.cons "result" (.str c.result) (.cons "details" (.obj c.details)
          (.cons "context" (.obj c.context)
            (match c.previous_hash with
             | some h => .cons "previous_hash" (.str h) .nil
             | none => .nil)))))))))

/-- The complete entry dict (after `log_entry["hash"] = ...` and
`log_entry["signature"] = ...`), in insertion order. -/
def LogEntry.toFields (e : LogEntry) : JsonFields :=
  e.content.toFields.append
    (.cons "hash" (.str e.hash) (.cons "signature" (.str e.signature) .nil))

/-- The canonical serialization hashed at creation time:
`json.dumps(log_entry, sort_keys=True)` of the entry dict before the `hash`
and `signature` keys exist (line 641). -/
def LogEntryContent.canonical (c : LogEntryContent) : String :=
  (Json.obj c.toFields).dumpsSorted

/-- One line of the persisted `audit_trail.jsonl` file: either a line that
parses back into a well-formed entry, or a corrupt line (on which
`json.loads` raises `JSONDecodeError`). -/
inductive FileLine where
  | entry (e : LogEntry)
  | corrupt (raw : String)

/-- `self.max_cached_logs`, set to 1000 in `__init__` and never changed. -/
def maxCachedLogs : Nat := 1000

/-- The mutable state of the orchestrator that the audited operations touch:
the sequence counter, the in-memory cache `self.audit_logs`, and the
persisted audit-trail file. -/
structure LedgerState where
  sequence_counter : Int
  audit_logs : List LogEntry
  audit_trail_file : List FileLine

/-- A freshly constructed orchestrator whose audit-trail file does not exist
yet; the sequence counter is left arbitrary (after `_init_sequence_counter`
it is 0 for a missing file, but none of the within-instance invariants
depend on its start value). -/
def freshLedger (c : Int) : LedgerState :=
  { sequence_counter := c, audit_logs := [], audit_trail_file := [] }

/-- Outcome of the `self.private_key.sign(...)` call inside `_sign_hash`:
either it returns a signature (hex-encoded by the caller) or it raises. -/
inductive SignOutcome where
  | ok (sig : String)
  | err

/-- `_sign_hash` (lines 653-678): returns the hex signature; any exception is
caught and the empty string is returned — the exception is NOT propagated. -/
def signHash : SignOutcome → String
  | .ok sig => sig
  | .err => ""

/-- `_create_log_entry`'s fallback read of the last persisted line when the
in-memory cache is empty (lines 616-638).  The Python code scans backwards
from EOF for a newline; because every line `_write_to_audit_trail` appends is
newline-terminated, the scan stops at the file's final newline and the
subsequent `readline()` returns the empty string, so `json.loads` raises and
the exception handler leaves `previous_hash` unset.  The fallback therefore
never produces a hash for a non-empty, normally-written file, and trivially
produces none for an empty or missing file. -/
def fileFallbackPreviousHash (_lines : List FileLine) : Option String :=
  none

/-- The `previous_hash` value `_create_log_entry` stores (lines 611-638):
the `hash` of the last cached entry if the cache is non-empty, else the
(always failing) file fallback. -/
def previousHashOf (st : LedgerState) : Option String :=
  match st.audit_logs.getLast? with
  | some prev => some prev.hash
  | none => fileFallbackPreviousHash st.audit_trail_file

/-- The caller-supplied fields of a `log_action` request (after validation;
`result` defaults to `"unknown"` and `details` to `{}` in
`handle_log_action`). -/
structure ActionInput where
  action_type : String
  actor_id : String
  target : String
  result : String
  details : JsonFields
  context : JsonFields

/-- `_create_log_entry` (lines 571-651): assign the next sequence number,
determine `previous_hash`, canonicalize and hash the content, sign the hash,
and return the complete entry.  `log_id` (a UUID) and `timestamp`
(`datetime.utcnow()`) are external inputs; the updated state records the
incremented sequence counter. -/
def createLogEntry (hashFn : String → String) (sgn : SignOutcome)
    (log_id timestamp : String) (inp : ActionInput) (st : LedgerState) :
    LogEntry × LedgerState :=
  let seq := st.sequence_counter + 1
  let content : LogEntryContent :=
    { log_id := log_id, timestamp := timestamp, sequence := seq,
      action_type := inp.action_type, actor_id := inp.actor_id,
      target := inp.target, result := inp.result, details := inp.details,
      context := inp.context, previous_hash := previousHashOf st }
  let h := hashFn content.canonical
  ({ content := content, hash := h, signature := signHash sgn },
   { st with sequence_counter := seq })

/-- `_write_to_audit_trail` (lines 728-744): append the entry as one line to
the audit-trail file; on an IO failure the exception is re-raised
(`raise`), modelled by `Except`.  `writeOk` is the outcome of the external
file-system write. -/
def writeToAuditTrail (writeOk : Bool) (e : LogEntry) (st : LedgerState) :
    Except Unit LedgerState :=
  if writeOk then
    .ok { st with audit_trail_file := st.audit_trail_file ++ [.entry e] }
  else
    .error ()

/-- `_add_to_cache` (lines 715-726): append to `self.audit_logs` and keep
only the most recent `max_cached_logs` entries. -/
def addToCache (e : LogEntry) (st : LedgerState) : LedgerState :=
  let logs := st.audit_logs ++ [e]
  { st with
    audit_logs :=
      if maxCachedLogs < logs.length then
        logs.drop (logs.length - maxCachedLogs)
      else logs }

/-- Error codes from `orchestrator_schema.ErrorCode` used by the handlers. -/
inductive ErrCode where
  | validation
  | processing
  deriving DecidableEq

/-- The response a handler returns to its caller. -/
inductive HandlerResult where
  /-- `handle_log_action`'s success payload
  `{log_id, timestamp, sequence, status}`. -/
  | logged (log_id : String) (timestamp : String) (sequence : Int) (status : String)
  /-- `message.create_error_response(error, error_code)`. -/
  | errorResponse (code : ErrCode)
  /-- `handle_run_compliance_check`'s success payload (the compliance result
  is carried separately; see `handleRunComplianceCheck`). -/
  | complianceResponse
  deriving DecidableEq

/-- `handle_log_action` (lines 261-317), after field validation: create the
entry, write it to the audit trail, add it to the cache, and answer
`status = "logged"`; any exception (in this model: only the re-raised write
failure) is caught and turned into a `PROCESSING_ERROR` response.  Note the
sequence counter has already been incremented when the write fails. -/
def handleLogAction (hashFn : String → String) (sgn : SignOutcome) (writeOk : Bool)
    (log_id timestamp : String) (inp : ActionInput) (st : LedgerState) :
    HandlerResult × LedgerState :=
  let created := createLogEntry hashFn sgn log_id timestamp inp st
  match writeToAuditTrail writeOk created.1 created.2 with
  | .ok st2 =>
    (.logged created.1.content.log_id created.1.content.timestamp
      created.1.content.sequence "logged", addToCache created.1 st2)
  | .error _ => (.errorResponse .processing, created.2)

/-! ## Compliance engine

`_load_compliance_rules` (lines 208-247) and `_run_compliance_check`
(lines 1096-1231). -/

/-- One configured compliance rule.  The optional parameters mirror the keys
that may appear in a rule dict (`threshold`, `patterns`, `field`,
`max_days`, `min_level`, `required_events`). -/
structure Rule where
  id : String
  check : String
  threshold : Option Int := none
  patterns : List String := []
  field : Option String := none
  max_days : Option Int := none
  min_level : Option String := none
  required_events : List String := []
  deriving DecidableEq

/-- A named framework: its ordered rules and its `severity_levels` map
(severity → rule ids), in dict insertion order. -/
structure Framework where
  rules : List Rule
  severity_levels : List (String × List String)
  deriving DecidableEq

/-- `_load_compliance_rules` (lines 208-247): the hardcoded rule sets, in
dict insertion order. -/
def complianceRules : List (String × Framework) :=
  [("gdpr",
    { rules :=
        [{ id := "data_minimization", check := "document_size_check", threshold := some 10 },
         { id := "pii_detection", check := "pii_pattern_match",
           patterns := ["ssn", "email", "phone"] },
         { id := "consent_tracking", check := "metadata_field_exists", field := some "consent" },
         { id := "data_retention", check := "max_age_check", max_days := some 730 }],
      severity_levels :=
        [("high", ["pii_detection"]),
         ("medium", ["consent_tracking", "data_retention"]),
         ("low", ["data_minimization"])] }),
   ("hipaa",
    { rules :=
        [{ id := "phi_protection", check := "phi_pattern_match",
           patterns := ["medical", "diagnosis", "treatment"] },
         { id := "access_controls", check := "auth_level_check", min_level := some "provider" },
         { id := "audit_trail", check := "audit_completeness",
           required_events := ["access", "modify", "delete"] }],
      severity_levels :=
        [("high", ["phi_protection"]),
         ("medium", ["access_controls"]),
         ("low", ["audit_trail"])] }),
   ("internal",
    { rules :=
        [{ id := "audit_signing", check := "signature_check" },
         { id := "log_sequence", check := "sequence_check" }],
      severity_levels :=
        [("critical", ["audit_signing", "log_sequence"])] })]

/-- The `document_date` value inside `check_params` as seen by the
`max_age_check` branch: either a date that `datetime.fromisoformat` parses,
abstracted to the document's age in days as computed against
`datetime.utcnow()` (line 1178), or a malformed date on which parsing raises
`ValueError`. -/
inductive DocDate where
  | valid (ageDays : Int)
  | malformed
  deriving DecidableEq

/-- The `check_params` dict of a compliance check, restricted to the keys
the checker branches read.  `metadata` is the list of keys present in the
`metadata` sub-dict (only membership is tested). -/
structure CheckParams where
  document_size : Option Int := none
  detected_patterns : List String := []
  metadata : List String := []
  document_date : Option DocDate := none
  deriving DecidableEq

/-- The per-rule result `{rule_id, severity, passed, details}` appended to
`check_results` (lines 1199-1204). -/
structure CheckResult where
  rule_id : String
  severity : String
  passed : Bool
  details : String
  deriving DecidableEq

/-- Severity lookup (lines 1135-1139): the first severity level whose rule
list contains the rule id, else `"unknown"`. -/
def severityOf (levels : List (String × List String)) (rule_id : String) : String :=
  match levels.find? (fun lv => lv.2.contains rule_id) with
  | some lv => lv.1
  | none => "unknown"

/-- One iteration of the rule loop of `_run_compliance_check`
(lines 1130-1204): dispatch on the rule's `check` kind; a kind matching no
branch keeps the initial `passed = True` / `"Compliance check passed"`. -/
def evalRule (levels : List (String × List String)) (params : CheckParams)
    (rule : Rule) : CheckResult :=
  let severity := severityOf levels rule.id
  if rule.check = "data_minimization" then
    let threshold := rule.threshold.getD 10
    let doc_size := params.document_size.getD 5
    let passed := decide (doc_size ≤ threshold)
    let word := if passed then "within" else "above"
    { rule_id := rule.id, severity := severity, passed := passed,
      details := s!"Document size {doc_size} is {word} threshold {threshold}" }
  else if rule.check = "pii_pattern_match" then
    let patterns := rule.patterns
    let detected := params.detected_patterns
    let passed := !(patterns.any (fun p => detected.contains p))
    if passed then
      { rule_id := rule.id, severity := severity, passed := passed,
        details := "No PII patterns detected" }
    else
      let matched := patterns.filter (fun p => detected.contains p)
      let n := matched.length
      let joined := String.intercalate ", " matched
      { rule_id := rule.id, severity := severity, passed := passed,
        details := s!"Detected {n} PII patterns: {joined}" }
  else if rule.check = "metadata_field_exists" then
    let passed :=
      match rule.field with
      | some f => params.metadata.contains f
      | none => false
    let fieldName := rule.field.getD "None"
    let word := if passed then "exists" else "missing"
    { rule_id := rule.id, severity := severity, passed := passed,
      details := s!"Required field \x27{fieldName}\x27 {word} in metadata" }
  else if rule.check = "max_age_check" then
    let max_days := rule.max_days.getD 365
    match params.document_date with
    | none =>
      { rule_id := rule.id, severity := severity, passed := false,
        details := "Document date not provided" }
    | some .malformed =>
      { rule_id := rule.id, severity := severity, passed := false,
        details := "Invalid document date format" }
    | some (.valid age) =>
      let passed := decide (age ≤ max_days)
      let word := if passed then "within" else "exceeds"
      { rule_id := rule.id, severity := severity, passed := passed,
        details := s!"Document age {age} days is {word} limit of {max_days} days" }
  else
    { rule_id := rule.id, severity := severity, passed := true,
      details := "Compliance check passed" }

/-- The loop accumulator of `_run_compliance_check`: `check_results`,
`all_passed` and the three failure counters (lines 1124-1128). -/
structure CheckAcc where
  results : List CheckResult
  all_passed : Bool
  critical_failures : Nat
  high_failures : Nat
  medium_failures : Nat
  deriving DecidableEq

/-- One iteration of the loop body (lines 1130-1204): evaluate the rule,
update `all_passed` and the severity counters, append the result. -/
def checkStep (levels : List (String × List String)) (params : CheckParams)
    (acc : CheckAcc) (rule : Rule) : CheckAcc :=
  let c := evalRule levels params rule
  { results := acc.results ++ [c],
    all_passed := acc.all_passed && c.passed,
    critical_failures :=
      acc.critical_failures + (if !c.passed && c.severity = "critical" then 1 else 0),
    high_failures :=
      acc.high_failures + (if !c.passed && c.severity = "high" then 1 else 0),
    medium_failures :=
      acc.medium_failures + (if !c.passed && c.severity = "medium" then 1 else 0) }

/-- The `violations` counts of the result dict (lines 1224-1229).  Note the
Python expression for `low` counts `len(check_results) - (critical + high +
medium)` when not all rules passed (so passing rules are counted), and 0
when all passed. -/
structure Violations where
  critical : Int
  high : Int
  medium : Int
  low : Int
  deriving DecidableEq

/-- The value `_run_compliance_check` returns (lines 1112-1231). -/
structure ComplianceResult where
  compliance_type : String
  target_id : String
  timestamp : String
  checks : List CheckResult
  overall_status : String
  violations : Violations
  status : String
  error : Option String
  deriving DecidableEq

/-- `_run_compliance_check` (lines 1096-1231).  `ts` models
`datetime.utcnow().isoformat() + "Z"`. -/
def runComplianceCheck (compliance_type target_id : String) (params : CheckParams)
    (ts : String) : ComplianceResult :=
  let fw := (complianceRules.lookup compliance_type).getD
    { rules := [], severity_levels := [] }
  if fw.rules = [] then
    { compliance_type := compliance_type, target_id := target_id, timestamp := ts,
      checks := [], overall_status := "error",
      violations := { critical := 0, high := 0, medium := 0, low := 0 },
      status := "error",
      error := some s!"No rules defined for compliance type: {compliance_type}" }
  else
    let acc := fw.rules.foldl (checkStep fw.severity_levels params)
      { results := [], all_passed := true, critical_failures := 0,
        high_failures := 0, medium_failures := 0 }
    let overall :=
      if acc.all_passed then "compliant"
      else if 0 < acc.critical_failures then "critical_violation"
      else if 0 < acc.high_failures then "high_violation"
      else if 0 < acc.medium_failures then "medium_violation"
      else "low_violation"
    let total : Int := acc.results.length
    let chm : Int := acc.critical_failures + acc.high_failures + acc.medium_failures
    { compliance_type := compliance_type, target_id := target_id, timestamp := ts,
      checks := acc.results, overall_status := overall,
      violations :=
        { critical := acc.critical_failures, high := acc.high_failures,
          medium := acc.medium_failures,
          low := total - chm - (if acc.all_passed then total else 0) },
      status := "success", error := none }

/-- Serialize a per-rule check result into JSON (used for the
`check_results` value placed in the compliance log entry's `details`). -/
def CheckResult.toJson (c : CheckResult) : Json :=
  .obj (.cons "rule_id" (.str c.rule_id) (.cons "severity" (.str c.severity)
    (.cons "passed" (.bool c.passed) (.cons "details" (.str c.details) .nil))))

/-- Serialize a list of check results into a JSON array. -/
def checksToJsonList : List CheckResult → JsonList
  | [] => .nil
  | c :: cs => .cons c.toJson (checksToJsonList cs)

/-- Serialize a full compliance result into JSON (the structure of the dict
returned by `_run_compliance_check`). -/
def ComplianceResult.toJson (r : ComplianceResult) : Json :=
  .obj (.cons "compliance_type" (.str r.compliance_type)
    (.cons "target_id" (.str r.target_id)
      (.cons "timestamp" (.str r.timestamp)
        (.cons "checks" (.arr (checksToJsonList r.checks))
          (.cons "overall_status" (.str r.overall_status)
            (.cons "violations" (.obj (.cons "critical" (.num r.violations.critical)
              (.cons "high" (.num r.violations.high)
                (.cons "medium" (.num r.violations.medium)
                  (.cons "low" (.num r.violations.low) .nil)))))
              (.cons "status" (.str r.status) .nil)))))))

/-- `handle_run_compliance_check` (lines 398-454), after field validation:
reject an unknown `compliance_type` with a `VALIDATION_ERROR`; otherwise run
the check, then call `_create_log_entry` to build a `compliance_check` log
entry — whose returned value is DISCARDED: the handler never calls
`_write_to_audit_trail` or `_add_to_cache` on it (compare
`handle_log_action`, lines 300-304).  Only the sequence counter advances. -/
def handleRunComplianceCheck (hashFn : String → String) (sgn : SignOutcome)
    (log_id timestamp : String) (compliance_type target_id : String)
    (params : CheckParams) (origin request_id : String) (ctx : JsonFields)
    (checkTs : String) (st : LedgerState) :
    (HandlerResult × Option ComplianceResult) × LedgerState :=
  if (complianceRules.lookup compliance_type).isSome then
    let result := runComplianceCheck compliance_type target_id params checkTs
    let inp : ActionInput :=
      { action_type := "compliance_check", actor_id := origin, target := target_id,
        result := "completed",
        details :=
          .cons "compliance_type" (.str compliance_type)
            (.cons "check_results" result.toJson
              (.cons "request_id" (.str request_id) .nil)),
        context := ctx }
    let created := createLogEntry hashFn sgn log_id timestamp inp st
    ((.complianceResponse, some result), created.2)
  else
    ((.errorResponse .validation, none), st)

/-! ## Signature verification and chain verification -/

/-- Decode one hex digit (the digits `bytes.fromhex` accepts). -/
def hexDigit? (c : Char) : Option Nat :=
  if '0' ≤ c ∧ c ≤ '9' then some (c.toNat - '0'.toNat)
  else if 'a' ≤ c ∧ c ≤ 'f' then some (c.toNat - 'a'.toNat + 10)
  else if 'A' ≤ c ∧ c ≤ 'F' then some (c.toNat - 'A'.toNat + 10)
  else none

/-- Decode a list of hex digits two at a time; an odd count or a non-hex
character fails. -/
def hexPairs : List Char → Option (List Nat)
  | [] => some []
  | [_] => none
  | c1 :: c2 :: rest => do
    let hi ← hexDigit? c1
    let lo ← hexDigit? c2
    let tl ← hexPairs rest
    pure ((16 * hi + lo) :: tl)

/-- Model of Python's `bytes.fromhex`: spaces are skipped, then pairs of hex
digits are decoded; anything else raises `ValueError`, modelled as `none`. -/
def bytesFromHex (s : String) : Option (List Nat) :=
  hexPairs (s.toList.filter (fun c => c ≠ ' '))

/-- Outcome of the external `self.public_key.verify(...)` call: it either
returns (valid), raises `InvalidSignature`, or raises some other
exception. -/
inductive RsaOutcome where
  | valid
  | invalidSig
  | err
  deriving DecidableEq

/-- The external RSA-PSS verification primitive, as a function of the decoded
signature bytes and the signed hash string. -/
def RsaVerify := List Nat → String → RsaOutcome

/-- `_verify_signature` (lines 680-713): decode the signature from hex and
verify; `InvalidSignature` and every other exception (including the
`ValueError` from `bytes.fromhex` on malformed hex) are caught and yield
`False`.  The function always returns a boolean — no exception escapes. -/
def verifySignature (rsa : RsaVerify) (log_hash sigHex : String) : Bool :=
  match bytesFromHex sigHex with
  | none => false
  | some sigBytes =>
    match rsa sigBytes log_hash with
    | .valid => true
    | .invalidSig => false
    | .err => false

/-- The hash recomputed at verification time (lines 958-964 and 1051-1057):
copy the entry dict, `pop("hash")`, `pop("signature")`, and hash the
sorted-keys serialization of what remains. -/
def recomputedHash (hashFn : String → String) (e : LogEntry) : String :=
  hashFn (Json.obj ((e.toFields.eraseKey "hash").eraseKey "signature")).dumpsSorted

/-- The report `_verify_log_entry` produces for a located entry
(lines 946-980): entries with an empty/missing signature get an error dict
with no `hash_matches` field; otherwise the recomputed hash and the
signature are checked. -/
inductive EntryVerifyReport where
  | noSignature (log_id : String)
  | report (log_id : String) (timestamp : String) (sequence : Int)
      (hash_matches signature_valid verified : Bool) (status : String)
  deriving DecidableEq

/-- `_verify_log_entry` (lines 946-980), applied to the entry located by
`log_id` (the cache/file lookup of lines 907-944 is not modelled: the claims
below concern a located, unmodified entry). -/
def verifyLogEntry (hashFn : String → String) (rsa : RsaVerify) (e : LogEntry) :
    EntryVerifyReport :=
  if e.signature = "" then .noSignature e.content.log_id
  else
    let hash_matches := recomputedHash hashFn e == e.hash
    let signature_valid := verifySignature rsa e.hash e.signature
    .report e.content.log_id e.content.timestamp e.content.sequence
      hash_matches signature_valid (hash_matches && signature_valid)
      (if hash_matches && signature_valid then "success" else "error")

/-- The entries among a file's lines (`json.loads` succeeding; corrupt lines
are skipped with `continue`). -/
def fileEntries (lines : List FileLine) : List LogEntry :=
  lines.filterMap fun l => match l with | .entry e => some e | .corrupt _ => none

/-- Keep an entry whose timestamp lies in the requested range
(lines 1011-1016).  The Python code compares `datetime` values parsed from
ISO-8601 strings; entries written by this orchestrator carry fixed-format
UTC timestamps, on which `datetime` order coincides with lexicographic
string order, so the range test is modelled by `String` comparison. -/
def tsInRange (startT endT : Option String) (ts : String) : Bool :=
  (match startT with | none => true | some s => decide (s ≤ ts)) &&
  (match endT with | none => true | some e => decide (ts ≤ e))

/-- Stable insertion by `sequence` (ascending). -/
def insertBySeq (e : LogEntry) : List LogEntry → List LogEntry
  | [] => [e]
  | f :: fs =>
    if f.content.sequence < e.content.sequence then f :: insertBySeq e fs
    else e :: f :: fs

/-- `logs.sort(key=lambda x: x.get("sequence", 0))` (line 1030): a stable
ascending sort by sequence. -/
def sortBySeq : List LogEntry → List LogEntry
  | [] => []
  | e :: es => insertBySeq e (sortBySeq es)

/-- One element of `verification_results` in `_verify_log_range`: either the
error dict appended for a missing signature (lines 1043-1047) or the full
per-entry dict (lines 1070-1077). -/
inductive VerifyDetail where
  | noSignature (log_id : String)
  | checked (log_id : String) (sequence : Int)
      (hash_matches signature_valid chain_ok verified : Bool)
  deriving DecidableEq

/-- The `verified` flag of a detail (the missing-signature dict carries
`verified: False`). -/
def VerifyDetail.verifiedFlag : VerifyDetail → Bool
  | .noSignature _ => false
  | .checked _ _ _ _ _ v => v

/-- The state threaded through the verification loop of `_verify_log_range`
(lines 1033-1035): accumulated results, the running `chain_valid` flag, and
the previous entry's stored hash. -/
structure RangeAcc where
  results : List VerifyDetail
  chain_valid : Bool
  previous_hash : Option String
  deriving DecidableEq

/-- One iteration of the loop of `_verify_log_range` (lines 1037-1084).
A missing signature appends an error dict, sets `chain_valid = False` and
`continue`s WITHOUT updating `previous_hash`.  Otherwise the hash is
recomputed, the signature verified, the link to the previous stored hash
checked, and `chain_valid` is cleared on a broken link or on a failed
hash/signature check; `previous_hash` becomes this entry's stored hash. -/
def rangeStep (hashFn : String → String) (rsa : RsaVerify)
    (acc : RangeAcc) (log : LogEntry) : RangeAcc :=
  if log.signature = "" then
    { results := acc.results ++ [.noSignature log.content.log_id],
      chain_valid := false, previous_hash := acc.previous_hash }
  else
    let log_hash := log.hash
    let hash_matches := recomputedHash hashFn log == log_hash
    let signature_valid := verifySignature rsa log_hash log.signature
    let link_ok := acc.previous_hash.isNone
      || (log.content.previous_hash == acc.previous_hash)
    let cv1 := if !link_ok then false else acc.chain_valid
    let verified := hash_matches && signature_valid && link_ok
    let cv2 := if !(hash_matches && signature_valid) then false else cv1
    { results := acc.results ++
        [.checked log.content.log_id log.content.sequence
          hash_matches signature_valid link_ok verified],
      chain_valid := cv2, previous_hash := some log_hash }

/-- The report `_verify_log_range` returns (lines 1086-1094). -/
structure RangeReport where
  logs_verified : Nat
  chain_valid : Bool
  all_verified : Bool
  verification_details : List VerifyDetail
  status : String
  deriving DecidableEq

/-- `_verify_log_range` (lines 982-1094): load the parseable lines in the
time range, sort by sequence, run the verification loop over every entry,
and report — with `verification_details` truncated to the FIRST TEN results
(line 1090). -/
def verifyLogRange (hashFn : String → String) (rsa : RsaVerify)
    (lines : List FileLine) (startT endT : Option String) : RangeReport :=
  let logs := (fileEntries lines).filter (fun e => tsInRange startT endT e.content.timestamp)
  let sorted := sortBySeq logs
  let acc := sorted.foldl (rangeStep hashFn rsa)
    { results := [], chain_valid := true, previous_hash := none }
  { logs_verified := acc.results.length,
    chain_valid := acc.chain_valid,
    all_verified := acc.results.all (fun r => r.verifiedFlag),
    verification_details := acc.results.take 10,
    status :=
      if acc.chain_valid && acc.results.all (fun r => r.verifiedFlag)
      then "success" else "error" }

/-! ## Sequence-counter recovery (`_init_sequence_counter`, lines 100-130) -/

/-- `_init_sequence_counter`: 0 when the audit-trail file does not exist or
has no lines; `last.sequence + 1` when the last line parses; the
timestamp fallback `int(time.time() * 1000)` (`nowMs`) when the last line is
corrupt.  (The bounded 4KB tail read is modelled as seeing the true last
line; a last line truncated by the window is a corrupt line.) -/
def initSequenceCounter (fileExists : Bool) (lines : List FileLine) (nowMs : Int) : Int :=
  if fileExists then
    match lines.getLast? with
    | none => 0
    | some (.entry e) => e.content.sequence + 1
    | some (.corrupt _) => nowMs
  else 0

/-- The sequence number assigned to the first entry created after a restart:
`_create_log_entry` increments the counter before using it (lines 594-596). -/
def firstNewSequence (fileExists : Bool) (lines : List FileLine) (nowMs : Int) : Int :=
  initSequenceCounter fileExists lines nowMs + 1

/-- The sequence of the last entry persisted in the file (the last line that
parses as an entry). -/
def lastPersistedSequence (lines : List FileLine) : Option Int :=
  ((fileEntries lines).getLast?).map (fun e => e.content.sequence)

/-! ## Operation sequences on one orchestrator instance -/

/-- One request handled by the orchestrator instance, together with the
outcomes of its external effects (UUID, clock, signing, file write). -/
inductive LedgerOp where
  | logAction (log_id timestamp : String) (inp : ActionInput)
      (sgn : SignOutcome) (writeOk : Bool)
  | complianceCheck (log_id timestamp : String) (compliance_type target_id : String)
      (params : CheckParams) (origin request_id : String) (ctx : JsonFields)
      (checkTs : String) (sgn : SignOutcome)

/-- Dispatch one operation. -/
def runOp (hashFn : String → String) (st : LedgerState) :
    LedgerOp → HandlerResult × LedgerState
  | .logAction lid ts inp sgn wOk => handleLogAction hashFn sgn wOk lid ts inp st
  | .complianceCheck lid ts ct tid p o rid ctx cts sgn =>
    let r := handleRunComplianceCheck hashFn sgn lid ts ct tid p o rid ctx cts st
    (r.1.1, r.2)

/-- Run a sequence of operations, collecting the handler responses. -/
def runOps (hashFn : String → String) : List LedgerOp → LedgerState →
    List HandlerResult × LedgerState
  | [], st => ([], st)
  | op :: ops, st =>
    let r := runOp hashFn st op
    let rest := runOps hashFn ops r.2
    (r.1 :: rest.1, rest.2)

/-- The `sequence` values returned to callers by successful `log_action`
responses, in call order. -/
def returnedSequences : List HandlerResult → List Int
  | [] => []
  | .logged _ _ seq _ :: rs => seq :: returnedSequences rs
  | .errorResponse _ :: rs => returnedSequences rs
  | .complianceResponse :: rs => returnedSequences rs

/-- The hash-chain property over a list of entries in file order: every
entry's `previous_hash` equals the stored `hash` of its immediate
predecessor. -/
def chainLinked : List LogEntry → Bool
  | [] => true
  | [_] => true
  | e1 :: e2 :: rest =>
    (e2.content.previous_hash == some e1.hash) && chainLinked (e2 :: rest)

/-! ## Theorems -/

/-- C9: for every hash string and signature string, `_verify_signature`
returns a boolean (its result type; no exception escapes the function: hex
decoding failure, `InvalidSignature` and any other exception of the
underlying RSA verify are all caught).  It returns `true` exactly when the
signature decodes from hex and the RSA-PSS verification succeeds; in
particular every malformed (non-hex) signature yields `false`. -/
theorem verify_signature_never_raises (rsa : RsaVerify) (log_hash sigHex : String) :
    (verifySignature rsa log_hash sigHex = true ↔
      ∃ bs, bytesFromHex sigHex = some bs ∧ rsa bs log_hash = .valid) ∧
    (bytesFromHex sigHex = none → verifySignature rsa log_hash sigHex = false) := by
  cases hb : bytesFromHex sigHex with
  | none =>
    refine ⟨⟨fun h => ?_, ?_⟩, fun _ => ?_⟩
    · simp [verifySignature, hb] at h
    · rintro ⟨bs, hbs, -⟩
      exact absurd hbs (by simp)
    · simp [verifySignature, hb]
  | some bs =>
    refine ⟨⟨fun h => ⟨bs, rfl, ?_⟩, ?_⟩, fun hnone => ?_⟩
    · cases hr : rsa bs log_hash
      · rfl
      · simp [verifySignature, hb, hr] at h
      · simp [verifySignature, hb, hr] at h
    · rintro ⟨bs2, hbs2, hr⟩
      injection hbs2 with e
      subst e
      simp [verifySignature, hb, hr]
    · exact absurd hnone (by simp)

/-- Witness for C9 at a concrete malformed signature: `"zz"` is not valid
hex, and verification reports `false` even for an RSA primitive that always
accepts. -/
theorem verify_signature_never_raises_witness :
    bytesFromHex "zz" = none ∧
    verifySignature (fun _ _ => RsaOutcome.valid) "somehash" "zz" = false :=
  ⟨by decide, (verify_signature_never_raises (fun _ _ => RsaOutcome.valid) "somehash" "zz").2
    (by decide)⟩

/-- C10: for every `check_params` (and every target), the gdpr evaluation
reports the `data_minimization` rule as passed with details
"Compliance check passed": its checker kind `"document_size_check"` matches
no dispatch branch of the rule loop (the branch tests the literal
`"data_minimization"`), so the size-threshold comparison never runs and the
rule cannot fail.  It is the first configured gdpr rule, hence the head of
the returned `checks` list. -/
theorem gdpr_data_minimization_always_passes (target_id ts : String) (params : CheckParams) :
    (runComplianceCheck "gdpr" target_id params ts).checks.head? =
      some { rule_id := "data_minimization", severity := "low", passed := true,
             details := "Compliance check passed" } := by
  rfl

/-- A concrete `log_action` request used in counterexamples and witnesses. -/
def sampleInput : ActionInput :=
  { action_type := "doc.parse", actor_id := "agent-1", target := "doc-1",
    result := "success", details := .nil, context := .nil }

/-- A concrete stand-in for the hash primitive (the theorems hold for every
`hashFn`, so a constant suffices for evaluation). -/
def constHash : String → String := fun _ => "H"

/-- C1 counterexample: a call on which signing fails
(`self.private_key.sign` raises, so `_sign_hash` catches and returns `""`)
but the durable write succeeds.  Contrary to the claim, `handle_log_action`
does NOT return a `ProcessingError`: it reports `status = "logged"`, and the
persisted entry carries the empty-string signature. -/
theorem log_action_sign_failure_logged_anyway :
    (handleLogAction constHash .err true "log-1" "2024-01-01T00:00:00Z"
      sampleInput (freshLedger 0)).1 =
        .logged "log-1" "2024-01-01T00:00:00Z" 1 "logged" ∧
    (handleLogAction constHash .err true "log-1" "2024-01-01T00:00:00Z"
      sampleInput (freshLedger 0)).2.audit_trail_file.map
        (fun l => match l with | .entry e => e.signature | .corrupt r => r) = [""] := by
  exact ⟨rfl, rfl⟩

/-- C1 (amended): a durable-write failure IS propagated — `handle_log_action`
returns a `PROCESSING_ERROR` response and nothing reaches the file or the
cache (only the sequence counter has advanced).  A signing failure, however,
is NOT propagated: `_sign_hash` catches the exception and returns `""`, and
the call still reports `status = "logged"`, persisting an entry whose
`signature` field is the empty string. -/
theorem log_action_failure_propagation (hashFn : String → String) (sgn : SignOutcome)
    (log_id timestamp : String) (inp : ActionInput) (st : LedgerState) :
    (handleLogAction hashFn sgn false log_id timestamp inp st).1 =
      .errorResponse .processing ∧
    (handleLogAction hashFn sgn false log_id timestamp inp st).2.audit_trail_file =
      st.audit_trail_file ∧
    (handleLogAction hashFn sgn false log_id timestamp inp st).2.audit_logs =
      st.audit_logs ∧
    (handleLogAction hashFn .err true log_id timestamp inp st).1 =
      .logged log_id timestamp (st.sequence_counter + 1) "logged" ∧
    (handleLogAction hashFn .err true log_id timestamp inp st).2.audit_trail_file =
      st.audit_trail_file ++
        [.entry (createLogEntry hashFn .err log_id timestamp inp st).1] ∧
    (createLogEntry hashFn .err log_id timestamp inp st).1.signature = "" := by
  exact ⟨rfl, rfl, rfl, rfl, rfl, rfl⟩

/-- C2 (code bug): `handle_run_compliance_check` on the known framework
`"gdpr"` returns a successful compliance response, yet both the persisted
audit trail and the in-memory cache are exactly as before the call: the
`compliance_check` entry built by `_create_log_entry` (line 435) is
discarded — the handler never passes it to `_write_to_audit_trail` or
`_add_to_cache` (contrast `handle_log_action`, lines 300-304).  Only the
sequence counter advances. -/
theorem compliance_check_entry_discarded (hashFn : String → String) (sgn : SignOutcome)
    (lid ts tid origin rid cts : String) (params : CheckParams) (ctx : JsonFields)
    (st : LedgerState) :
    (handleRunComplianceCheck hashFn sgn lid ts "gdpr" tid params origin rid ctx
      cts st).2.audit_trail_file = st.audit_trail_file ∧
    (handleRunComplianceCheck hashFn sgn lid ts "gdpr" tid params origin rid ctx
      cts st).2.audit_logs = st.audit_logs ∧
    (handleRunComplianceCheck hashFn sgn lid ts "gdpr" tid params origin rid ctx
      cts st).1.1 = .complianceResponse ∧
    (handleRunComplianceCheck hashFn sgn lid ts "gdpr" tid params origin rid ctx
      cts st).2.sequence_counter = st.sequence_counter + 1 := by
  exact ⟨rfl, rfl, rfl, rfl⟩

/-- A persisted entry with sequence 5000, used in the C8 counterexample. -/
def seq5000Entry : LogEntry :=
  { content :=
      { log_id := "log-a", timestamp := "2024-01-01T00:00:00Z", sequence := 5000,
        action_type := "doc.parse", actor_id := "agent-1", target := "doc-1",
        result := "success", details := .nil, context := .nil, previous_hash := none },
    hash := "H", signature := "aa" }

/-- C8 counterexample: an existing ledger file whose last line is corrupt and
whose last valid entry has sequence 5000, re-opened when
`int(time.time() * 1000) = 3000`.  The fallback sets the counter to 3000, so
the first new sequence is 3001 — NOT strictly greater than the last
persisted sequence 5000: sequence numbers can be reused. -/
theorem sequencer_fallback_not_monotone :
    firstNewSequence true [.entry seq5000Entry, .corrupt "garbage"] 3000 = 3001 ∧
    lastPersistedSequence [.entry seq5000Entry, .corrupt "garbage"] = some 5000 ∧
    ¬ (5000 : Int) < 3001 := by
  exact ⟨rfl, rfl, by decide⟩

/-- C8 (amended): when the last line of the existing file parses as a valid
entry, the new instance's first sequence is that entry's sequence plus two —
strictly greater than the last persisted sequence.  When the last line is
corrupt, the timestamp-derived fallback (`int(time.time()*1000)`) yields a
first sequence strictly greater than the last persisted sequence ONLY under
the additional assumption that the clock value is at least that sequence;
the code provides no unconditional guarantee in the fallback case. -/
theorem sequencer_restart_exceeds_last (lines : List FileLine) (e : LogEntry)
    (raw : String) (nowMs s : Int) :
    (lastPersistedSequence (lines ++ [.entry e]) = some e.content.sequence ∧
     firstNewSequence true (lines ++ [.entry e]) nowMs = e.content.sequence + 2 ∧
     e.content.sequence < firstNewSequence true (lines ++ [.entry e]) nowMs) ∧
    (lastPersistedSequence (lines ++ [.corrupt raw]) = some s → s ≤ nowMs →
      s < firstNewSequence true (lines ++ [.corrupt raw]) nowMs) := by
  constructor
  · have hlast : (lines ++ [FileLine.entry e]).getLast? = some (.entry e) :=
      List.getLast?_concat lines
    have hfe : fileEntries (lines ++ [.entry e]) = fileEntries lines ++ [e] := by
      simp [fileEntries]
    refine ⟨?_, ?_, ?_⟩
    · rw [lastPersistedSequence, hfe, List.getLast?_concat]
      rfl
    · rw [firstNewSequence, initSequenceCounter]
      simp [hlast]
      ring
    · rw [firstNewSequence, initSequenceCounter]
      simp [hlast]
      omega
  · intro hlast hle
    have hcor : (lines ++ [FileLine.corrupt raw]).getLast? = some (.corrupt raw) :=
      List.getLast?_concat lines
    rw [firstNewSequence, initSequenceCounter]
    simp [hcor]
    omega

/-- Witness for C8 (amended), corrupt-tail case: the last valid sequence is
5000 and the clock value 6000 is at least 5000, so the first new sequence
(6001) exceeds 5000. -/
theorem sequencer_restart_exceeds_last_witness :
    (5000 : Int) < firstNewSequence true ([.entry seq5000Entry] ++ [.corrupt "garbage"]) 6000 :=
  (sequencer_restart_exceeds_last [.entry seq5000Entry] seq5000Entry "garbage" 6000 5000).2
    rfl (by decide)

/-- The sequences contributed by a response list split at its head. -/
theorem returnedSequences_cons (r : HandlerResult) (rs : List HandlerResult) :
    returnedSequences (r :: rs) = returnedSequences [r] ++ returnedSequences rs := by
  cases r <;> simp [returnedSequences]

/-- Each handled operation advances the sequence counter by zero or one, and
a successful `log_action` response returns exactly the incremented
counter. -/
theorem runOp_spec (hashFn : String → String) (st : LedgerState) (op : LedgerOp) :
    st.sequence_counter ≤ (runOp hashFn st op).2.sequence_counter ∧
    (returnedSequences [(runOp hashFn st op).1] = [] ∨
     (returnedSequences [(runOp hashFn st op).1] = [st.sequence_counter + 1] ∧
      (runOp hashFn st op).2.sequence_counter = st.sequence_counter + 1)) := by
  cases op with
  | logAction lid ts inp sgn wOk =>
    cases wOk with
    | false =>
      refine ⟨?_, .inl rfl⟩
      simp [runOp, handleLogAction, writeToAuditTrail, createLogEntry]
    | true =>
      refine ⟨?_, .inr ⟨rfl, rfl⟩⟩
      simp [runOp, handleLogAction, writeToAuditTrail, createLogEntry, addToCache]
  | complianceCheck lid ts ct tid p o rid ctx cts sgn =>
    by_cases h : (complianceRules.lookup ct).isSome
    · refine ⟨?_, .inl ?_⟩ <;>
        simp [runOp, handleRunComplianceCheck, h, createLogEntry, returnedSequences]
    · refine ⟨?_, .inl ?_⟩ <;>
        simp [runOp, handleRunComplianceCheck, h, returnedSequences]

/-- Invariant for C4: along any operation sequence, every returned sequence
value exceeds the starting counter, and the returned values are pairwise
strictly increasing in call order. -/
theorem returnedSequences_strict_aux (hashFn : String → String) (ops : List LedgerOp) :
    ∀ st : LedgerState,
      (∀ s ∈ returnedSequences (runOps hashFn ops st).1, st.sequence_counter < s) ∧
      List.Pairwise (· < ·) (returnedSequences (runOps hashFn ops st).1) := by
  induction ops with
  | nil => intro st; simp [runOps, returnedSequences]
  | cons op ops ih =>
    intro st
    have hspec := runOp_spec hashFn st op
    have hih := ih (runOp hashFn st op).2
    have hcons : (runOps hashFn (op :: ops) st).1 =
        (runOp hashFn st op).1 :: (runOps hashFn ops (runOp hashFn st op).2).1 := rfl
    rw [hcons, returnedSequences_cons]
    rcases hspec.2 with hnone | ⟨hone, hcount⟩
    · rw [hnone]
      simp only [List.nil_append]
      exact ⟨fun s hs => lt_of_le_of_lt hspec.1 (hih.1 s hs), hih.2⟩
    · rw [hone]
      simp only [List.singleton_append]
      constructor
      · intro s hs
        rcases List.mem_cons.mp hs with rfl | hs'
        · omega
        · have := hih.1 s hs'
          omega
      · refine List.Pairwise.cons (fun s hs => ?_) hih.2
        have := hih.1 s hs
        omega

/-- C4: for any sequence of handled operations on one orchestrator instance
(in particular, for any sequence of N `log_action` calls), the `sequence`
values returned by the successful `log_action` responses are pairwise
strictly increasing in call order — hence strictly increasing with no
duplicates. -/
theorem log_action_sequences_strictly_increasing (hashFn : String → String)
    (ops : List LedgerOp) (st : LedgerState) :
    List.Pairwise (· < ·) (returnedSequences (runOps hashFn ops st).1) :=
  (returnedSequences_strict_aux hashFn ops st).2

/-- The inductive invariant for C3: the persisted entries form a valid hash
chain, and the last cached entry (used as the `previous_hash` source) agrees
with the last persisted entry. -/
def ChainInv (st : LedgerState) : Prop :=
  chainLinked (fileEntries st.audit_trail_file) = true ∧
  (st.audit_logs.getLast?).map (fun e => e.hash) =
    ((fileEntries st.audit_trail_file).getLast?).map (fun e => e.hash)

/-- `previousHashOf` is the hash of the last cached entry (the file fallback
of lines 616-638 never yields a hash; see `fileFallbackPreviousHash`). -/
theorem previousHashOf_eq (st : LedgerState) :
    previousHashOf st = (st.audit_logs.getLast?).map (fun e => e.hash) := by
  cases h : st.audit_logs.getLast? <;>
    simp [previousHashOf, h, fileFallbackPreviousHash]

/-- Appending an entry whose `previous_hash` is the stored hash of the
current last entry preserves chain validity. -/
theorem chainLinked_concat (l : List LogEntry) (e : LogEntry)
    (h : chainLinked l = true)
    (hlink : e.content.previous_hash = (l.getLast?).map (fun x => x.hash)) :
    chainLinked (l ++ [e]) = true := by
  induction l with
  | nil => simp [chainLinked]
  | cons x xs ih =>
    cases xs with
    | nil =>
      simp only [List.getLast?_singleton, Option.map_some] at hlink
      simp [chainLinked, hlink]
    | cons y ys =>
      rw [List.getLast?_cons_cons] at hlink
      simp only [chainLinked, Bool.and_eq_true] at h
      have htail := ih h.2 hlink
      have hshape : (x :: y :: ys) ++ [e] = x :: y :: (ys ++ [e]) := by simp
      rw [hshape]
      simp only [chainLinked, Bool.and_eq_true]
      exact ⟨h.1, by simpa using htail⟩

/-- The cache keeps the freshly appended entry as its last element (the
trimming of `_add_to_cache` drops only the oldest entries). -/
theorem addToCache_getLast (e : LogEntry) (st : LedgerState) :
    (addToCache e st).audit_logs.getLast? = some e := by
  unfold addToCache
  by_cases h : maxCachedLogs < (st.audit_logs ++ [e]).length
  · simp only [h, if_true]
    rw [List.drop_append_of_le_length]
    · simp
    · simp only [List.length_append, List.length_singleton] at h ⊢
      have : 1 ≤ maxCachedLogs := by norm_num [maxCachedLogs]
      omega
  · simp only [h, if_false]
    simp

/-- Entries of a file extended by one well-formed line. -/
theorem fileEntries_append_entry (lines : List FileLine) (e : LogEntry) :
    fileEntries (lines ++ [.entry e]) = fileEntries lines ++ [e] := by
  simp [fileEntries]

/-- A successful `log_action` appends exactly the created entry to the
file. -/
theorem runOp_logAction_true_file (hashFn : String → String) (st : LedgerState)
    (lid ts : String) (inp : ActionInput) (sgn : SignOutcome) :
    (runOp hashFn st (.logAction lid ts inp sgn true)).2.audit_trail_file =
      st.audit_trail_file ++ [.entry (createLogEntry hashFn sgn lid ts inp st).1] := rfl

/-- A successful `log_action` updates the cache exactly as `_add_to_cache`
does with the created entry. -/
theorem runOp_logAction_true_cache (hashFn : String → String) (st : LedgerState)
    (lid ts : String) (inp : ActionInput) (sgn : SignOutcome) :
    (runOp hashFn st (.logAction lid ts inp sgn true)).2.audit_logs =
      (addToCache (createLogEntry hashFn sgn lid ts inp st).1 st).audit_logs := rfl

/-- One handled operation preserves the chain invariant. -/
theorem chainInv_runOp (hashFn : String → String) (st : LedgerState) (op : LedgerOp)
    (h : ChainInv st) : ChainInv (runOp hashFn st op).2 := by
  cases op with
  | logAction lid ts inp sgn wOk =>
    cases wOk with
    | false => exact h
    | true =>
      have hprev : (createLogEntry hashFn sgn lid ts inp st).1.content.previous_hash =
          ((fileEntries st.audit_trail_file).getLast?).map (fun e => e.hash) := by
        have hp : (createLogEntry hashFn sgn lid ts inp st).1.content.previous_hash =
            previousHashOf st := rfl
        rw [hp, previousHashOf_eq]
        exact h.2
      constructor
      · rw [runOp_logAction_true_file, fileEntries_append_entry]
        exact chainLinked_concat _ _ h.1 hprev
      · rw [runOp_logAction_true_cache, runOp_logAction_true_file,
          addToCache_getLast, fileEntries_append_entry]
        simp
  | complianceCheck lid ts ct tid p o rid ctx cts sgn =>
    by_cases hl : (complianceRules.lookup ct).isSome
    · simpa [runOp, handleRunComplianceCheck, hl, createLogEntry] using h
    · simpa [runOp, handleRunComplianceCheck, hl] using h

/-- The chain invariant is preserved along any operation sequence. -/
theorem chainInv_runOps (hashFn : String → String) (ops : List LedgerOp) :
    ∀ st : LedgerState, ChainInv st → ChainInv (runOps hashFn ops st).2 := by
  induction ops with
  | nil => intro st h; exact h
  | cons op ops ih =>
    intro st h
    exact ih (runOp hashFn st op).2 (chainInv_runOp hashFn st op h)

/-- C3: starting from a freshly constructed instance (no pre-existing file),
after any sequence of handled operations every pair of consecutive persisted
entries `(e1, e2)` — necessarily written by successful `log_action` calls of
this instance, the only code path that appends to the file — satisfies
`e2.previous_hash = some e1.hash` (`chainLinked`). -/
theorem log_action_chain_linked (hashFn : String → String) (ops : List LedgerOp)
    (c : Int) :
    chainLinked (fileEntries
      (runOps hashFn ops (freshLedger c)).2.audit_trail_file) = true :=
  (chainInv_runOps hashFn ops (freshLedger c) ⟨rfl, rfl⟩).1

/-- Popping the `hash` and `signature` keys from the complete entry dict
recovers exactly the dict that was hashed at creation time: the content
fields use none of those two keys. -/
theorem eraseKey_toFields (c : LogEntryContent) (h s : String) :
    ((c.toFields.append (.cons "hash" (.str h)
      (.cons "signature" (.str s) .nil))).eraseKey "hash").eraseKey "signature" =
    c.toFields := by
  cases hp : c.previous_hash <;>
    simp [LogEntryContent.toFields, JsonFields.append, JsonFields.eraseKey, hp]

/-- The `hash_matches` field of an entry-verification report (absent from
the missing-signature error dict). -/
def EntryVerifyReport.hashMatchesFlag : EntryVerifyReport → Option Bool
  | .noSignature _ => none
  | .report _ _ _ hm _ _ _ => some hm

/-- C5: for every entry produced by `_create_log_entry` (any hash function,
any signing outcome, any inputs, any prior state), the hash recomputed at
verification time — over the sorted-key serialization of the entry with its
`hash` and `signature` keys popped — equals the stored `hash` field; hence
`_verify_log_entry` on such an unmodified entry (when its signature is
non-empty, otherwise the error dict carries no `hash_matches` field at all)
reports `hash_matches = true`. -/
theorem recompute_hash_agrees (hashFn : String → String) (sgn : SignOutcome)
    (rsa : RsaVerify) (lid ts : String) (inp : ActionInput) (st : LedgerState) :
    recomputedHash hashFn (createLogEntry hashFn sgn lid ts inp st).1 =
      (createLogEntry hashFn sgn lid ts inp st).1.hash ∧
    ((createLogEntry hashFn sgn lid ts inp st).1.signature ≠ "" →
      (verifyLogEntry hashFn rsa
        (createLogEntry hashFn sgn lid ts inp st).1).hashMatchesFlag = some true) := by
  have hmain : recomputedHash hashFn (createLogEntry hashFn sgn lid ts inp st).1 =
      (createLogEntry hashFn sgn lid ts inp st).1.hash := by
    unfold recomputedHash LogEntry.toFields
    rw [eraseKey_toFields]
    rfl
  refine ⟨hmain, fun hsig => ?_⟩
  unfold verifyLogEntry
  rw [if_neg hsig]
  simp [EntryVerifyReport.hashMatchesFlag, hmain]

/-- Witness for C5 at concrete inputs: a successfully signed entry has a
non-empty signature and verifies with `hash_matches = true`. -/
theorem recompute_hash_agrees_witness :
    (createLogEntry constHash (.ok "aa") "log-1" "2024-01-01T00:00:00Z"
      sampleInput (freshLedger 0)).1.signature ≠ "" ∧
    (verifyLogEntry constHash (fun _ _ => RsaOutcome.valid)
      (createLogEntry constHash (.ok "aa") "log-1" "2024-01-01T00:00:00Z"
        sampleInput (freshLedger 0)).1).hashMatchesFlag = some true :=
  ⟨by decide,
   (recompute_hash_agrees constHash (.ok "aa") (fun _ _ => RsaOutcome.valid)
     "log-1" "2024-01-01T00:00:00Z" sampleInput (freshLedger 0)).2 (by decide)⟩

/-- The rule loop of `_run_compliance_check` in closed form: it evaluates
every configured rule in order, `all_passed` is the conjunction of the
per-rule outcomes, and each severity counter counts the failing rules of
that severity. -/
theorem checkFold_spec (levels : List (String × List String)) (params : CheckParams)
    (rules : List Rule) : ∀ acc : CheckAcc,
    rules.foldl (checkStep levels params) acc =
      { results := acc.results ++ rules.map (evalRule levels params),
        all_passed := acc.all_passed &&
          (rules.map (evalRule levels params)).all (fun c => c.passed),
        critical_failures := acc.critical_failures +
          (rules.map (evalRule levels params)).countP
            (fun c => !c.passed && decide (c.severity = "critical")),
        high_failures := acc.high_failures +
          (rules.map (evalRule levels params)).countP
            (fun c => !c.passed && decide (c.severity = "high")),
        medium_failures := acc.medium_failures +
          (rules.map (evalRule levels params)).countP
            (fun c => !c.passed && decide (c.severity = "medium")) } := by
  induction rules with
  | nil => intro acc; cases acc; simp
  | cons r rs ih =>
    intro acc
    simp only [List.foldl_cons, List.map_cons]
    rw [ih]
    simp only [checkStep, List.countP_cons, List.all_cons, CheckAcc.mk.injEq]
    refine ⟨by simp, by simp [Bool.and_assoc], by omega, by omega, by omega⟩

/-- The failing-severities list is empty exactly when every rule passed. -/
theorem fails_empty_iff (cs : List CheckResult) :
    ((cs.filter (fun c => !c.passed)).map (fun c => c.severity) = []) ↔
      cs.all (fun c => c.passed) = true := by
  simp [List.all_eq_true, List.filter_eq_nil_iff]

/-- The failing-severities list contains a severity exactly when the count of
failing rules of that severity is positive. -/
theorem fails_contains_iff (cs : List CheckResult) (sev : String) :
    (((cs.filter (fun c => !c.passed)).map (fun c => c.severity)).contains sev = true) ↔
      0 < cs.countP (fun c => !c.passed && decide (c.severity = sev)) := by
  simp [List.countP_pos_iff, List.mem_filter]
  constructor
  · rintro ⟨a, ⟨ha, hp⟩, hs⟩
    exact ⟨a, ha, hp, hs⟩
  · rintro ⟨a, ha, hp, hs⟩
    exact ⟨a, ⟨ha, hp⟩, hs⟩

/-- For a known framework with a non-empty rule list, `_run_compliance_check`
returns the per-rule evaluations as `checks`, and `overall_status` is the
counter-based priority chain of lines 1206-1216. -/
theorem runCheck_overall (ct tid ts : String) (params : CheckParams) (fwv : Framework)
    (hlook : complianceRules.lookup ct = some fwv) (hne : fwv.rules ≠ []) :
    (runComplianceCheck ct tid params ts).checks =
      fwv.rules.map (evalRule fwv.severity_levels params) ∧
    (runComplianceCheck ct tid params ts).overall_status =
      (if (fwv.rules.map (evalRule fwv.severity_levels params)).all (fun c => c.passed)
       then "compliant"
       else if 0 < (fwv.rules.map (evalRule fwv.severity_levels params)).countP
          (fun c => !c.passed && decide (c.severity = "critical")) then "critical_violation"
       else if 0 < (fwv.rules.map (evalRule fwv.severity_levels params)).countP
          (fun c => !c.passed && decide (c.severity = "high")) then "high_violation"
       else if 0 < (fwv.rules.map (evalRule fwv.severity_levels params)).countP
          (fun c => !c.passed && decide (c.severity = "medium")) then "medium_violation"
       else "low_violation") := by
  simp only [runComplianceCheck, hlook, Option.getD_some, hne, if_false, checkFold_spec,
    List.nil_append, Bool.true_and, Nat.zero_add]
  exact ⟨trivial, trivial⟩

/-- The counter-based priority chain coincides with the strict priority over
the severities of the failing rules. -/
theorem overall_matches_fails (ct tid ts : String) (params : CheckParams) (fwv : Framework)
    (hlook : complianceRules.lookup ct = some fwv) (hne : fwv.rules ≠ []) :
    (runComplianceCheck ct tid params ts).overall_status =
      (if ((runComplianceCheck ct tid params ts).checks.filter
            (fun c => !c.passed)).map (fun c => c.severity) = [] then "compliant"
       else if (((runComplianceCheck ct tid params ts).checks.filter
            (fun c => !c.passed)).map (fun c => c.severity)).contains "critical"
         then "critical_violation"
       else if (((runComplianceCheck ct tid params ts).checks.filter
            (fun c => !c.passed)).map (fun c => c.severity)).contains "high"
         then "high_violation"
       else if (((runComplianceCheck ct tid params ts).checks.filter
            (fun c => !c.passed)).map (fun c => c.severity)).contains "medium"
         then "medium_violation"
       else "low_violation") := by
  obtain ⟨hchecks, hoverall⟩ := runCheck_overall ct tid ts params fwv hlook hne
  rw [hoverall, hchecks]
  by_cases hA : (fwv.rules.map (evalRule fwv.severity_levels params)).all
      (fun c => c.passed) = true
  · rw [if_pos hA, if_pos ((fails_empty_iff _).mpr hA)]
  · rw [if_neg hA, if_neg (fun hh => hA ((fails_empty_iff _).mp hh))]
    by_cases hC : 0 < (fwv.rules.map (evalRule fwv.severity_levels params)).countP
        (fun c => !c.passed && decide (c.severity = "critical"))
    · rw [if_pos hC, if_pos ((fails_contains_iff _ "critical").mpr hC)]
    · rw [if_neg hC, if_neg (fun hh => hC ((fails_contains_iff _ "critical").mp hh))]
      by_cases hH : 0 < (fwv.rules.map (evalRule fwv.severity_levels params)).countP
          (fun c => !c.passed && decide (c.severity = "high"))
      · rw [if_pos hH, if_pos ((fails_contains_iff _ "high").mpr hH)]
      · rw [if_neg hH, if_neg (fun hh => hH ((fails_contains_iff _ "high").mp hh))]
        by_cases hM : 0 < (fwv.rules.map (evalRule fwv.severity_levels params)).countP
            (fun c => !c.passed && decide (c.severity = "medium"))
        · rw [if_pos hM, if_pos ((fails_contains_iff _ "medium").mpr hM)]
        · rw [if_neg hM, if_neg (fun hh => hM ((fails_contains_iff _ "medium").mp hh))]

/-- A framework whose lookup succeeds is one of the three configured ones. -/
theorem known_framework_cases (fw : String)
    (hfw : (complianceRules.lookup fw).isSome = true) :
    fw = "gdpr" ∨ fw = "hipaa" ∨ fw = "internal" := by
  by_contra hc
  push_neg at hc
  obtain ⟨h1, h2, h3⟩ := hc
  have e1 : (fw == "gdpr") = false := by simp [h1]
  have e2 : (fw == "hipaa") = false := by simp [h2]
  have e3 : (fw == "internal") = false := by simp [h3]
  simp [complianceRules, List.lookup, e1, e2, e3] at hfw

/-- C7: for every known framework and every `check_params`, the
`overall_status` of a compliance evaluation follows strict priority over the
severities of the failing rules — any failing critical rule gives
`critical_violation`; else any failing high gives `high_violation`; else
medium gives `medium_violation`; else any remaining failure gives
`low_violation`; else `compliant` — independent of how many rules pass.
In particular, evaluating `"gdpr"` with `detected_patterns = ["ssn"]` yields
`overall_status = "high_violation"`. -/
theorem overall_status_strict_priority (fw target_id ts : String) (params : CheckParams)
    (hfw : (complianceRules.lookup fw).isSome = true) :
    ((runComplianceCheck fw target_id params ts).overall_status =
      (if ((runComplianceCheck fw target_id params ts).checks.filter
            (fun c => !c.passed)).map (fun c => c.severity) = [] then "compliant"
       else if (((runComplianceCheck fw target_id params ts).checks.filter
            (fun c => !c.passed)).map (fun c => c.severity)).contains "critical"
         then "critical_violation"
       else if (((runComplianceCheck fw target_id params ts).checks.filter
            (fun c => !c.passed)).map (fun c => c.severity)).contains "high"
         then "high_violation"
       else if (((runComplianceCheck fw target_id params ts).checks.filter
            (fun c => !c.passed)).map (fun c => c.severity)).contains "medium"
         then "medium_violation"
       else "low_violation")) ∧
    (runComplianceCheck "gdpr" target_id { detected_patterns := ["ssn"] } ts).overall_status =
      "high_violation" := by
  constructor
  · rcases known_framework_cases fw hfw with rfl | rfl | rfl
    · exact overall_matches_fails "gdpr" target_id ts params _ rfl (by decide)
    · exact overall_matches_fails "hipaa" target_id ts params _ rfl (by decide)
    · exact overall_matches_fails "internal" target_id ts params _ rfl (by decide)
  · rfl

/-- Witness for C7 at a concrete known framework and concrete params. -/
theorem overall_status_strict_priority_witness :
    (complianceRules.lookup "gdpr").isSome = true ∧
    (runComplianceCheck "gdpr" "doc-1" { detected_patterns := ["ssn"] } "T").overall_status =
      "high_violation" :=
  ⟨by decide, (overall_status_strict_priority "gdpr" "doc-1" "T"
      { detected_patterns := ["ssn"] } (by decide)).2⟩

/-- The per-entry verification outcome of the range loop, as a function of
the entry and the stored hash of its (signed) predecessor only — used to
state that the loop inspects every entry locally, without short-circuiting
on earlier failures. -/
def detailSpec (hashFn : String → String) (rsa : RsaVerify) (prev : Option String)
    (log : LogEntry) : VerifyDetail :=
  if log.signature = "" then .noSignature log.content.log_id
  else
    let hash_matches := recomputedHash hashFn log == log.hash
    let signature_valid := verifySignature rsa log.hash log.signature
    let link_ok := prev.isNone || (log.content.previous_hash == prev)
    .checked log.content.log_id log.content.sequence hash_matches signature_valid link_ok
      (hash_matches && signature_valid && link_ok)

/-- The predecessor hash visible to the next iteration: an unsigned entry is
skipped by `continue` without updating `previous_hash` (line 1049). -/
def nextPrev (prev : Option String) (log : LogEntry) : Option String :=
  if log.signature = "" then prev else some log.hash

/-- The full list of per-entry verification results, one per entry. -/
def detailsSpec (hashFn : String → String) (rsa : RsaVerify) :
    Option String → List LogEntry → List VerifyDetail
  | _, [] => []
  | prev, l :: ls =>
    detailSpec hashFn rsa prev l :: detailsSpec hashFn rsa (nextPrev prev l) ls

/-- `detailsSpec` yields exactly one result per entry. -/
theorem detailsSpec_length (hashFn : String → String) (rsa : RsaVerify)
    (ls : List LogEntry) : ∀ prev : Option String,
    (detailsSpec hashFn rsa prev ls).length = ls.length := by
  induction ls with
  | nil => intro prev; rfl
  | cons l ls ih => intro prev; simp [detailsSpec, ih]

/-- One loop iteration appends exactly the local per-entry result and
updates the predecessor hash as `nextPrev` does. -/
theorem rangeStep_results (hashFn : String → String) (rsa : RsaVerify)
    (acc : RangeAcc) (l : LogEntry) :
    (rangeStep hashFn rsa acc l).results =
      acc.results ++ [detailSpec hashFn rsa acc.previous_hash l] ∧
    (rangeStep hashFn rsa acc l).previous_hash = nextPrev acc.previous_hash l := by
  by_cases hsig : l.signature = "" <;>
    simp [rangeStep, detailSpec, nextPrev, hsig]

/-- The whole verification loop produces the full local result list. -/
theorem rangeFold_results (hashFn : String → String) (rsa : RsaVerify)
    (ls : List LogEntry) : ∀ acc : RangeAcc,
    (ls.foldl (rangeStep hashFn rsa) acc).results =
      acc.results ++ detailsSpec hashFn rsa acc.previous_hash ls := by
  induction ls with
  | nil => intro acc; simp [detailsSpec]
  | cons l ls ih =>
    intro acc
    simp only [List.foldl_cons]
    rw [ih]
    obtain ⟨h1, h2⟩ := rangeStep_results hashFn rsa acc l
    rw [h1, h2]
    simp [detailsSpec, List.append_assoc]

/-- C6 (amended): `_verify_log_range` examines every entry in the range
without short-circuiting — `logs_verified` counts them all, the loop
produces one locally-determined result per entry (`detailsSpec`), and
`all_verified` reflects all of them — but the returned report's
`verification_details` is truncated to the FIRST TEN per-entry results, so
failures beyond the tenth entry in the range are not individually identified
in the returned report. -/
theorem verify_range_examines_all (hashFn : String → String) (rsa : RsaVerify)
    (lines : List FileLine) (startT endT : Option String) :
    (verifyLogRange hashFn rsa lines startT endT).logs_verified =
      (sortBySeq ((fileEntries lines).filter
        (fun e => tsInRange startT endT e.content.timestamp))).length ∧
    (verifyLogRange hashFn rsa lines startT endT).all_verified =
      (detailsSpec hashFn rsa none (sortBySeq ((fileEntries lines).filter
        (fun e => tsInRange startT endT e.content.timestamp)))).all
        (fun d => d.verifiedFlag) ∧
    (verifyLogRange hashFn rsa lines startT endT).verification_details =
      (detailsSpec hashFn rsa none (sortBySeq ((fileEntries lines).filter
        (fun e => tsInRange startT endT e.content.timestamp)))).take 10 := by
  have hres : ((sortBySeq ((fileEntries lines).filter
      (fun e => tsInRange startT endT e.content.timestamp))).foldl
        (rangeStep hashFn rsa)
        { results := [], chain_valid := true, previous_hash := none }).results =
      detailsSpec hashFn rsa none (sortBySeq ((fileEntries lines).filter
        (fun e => tsInRange startT endT e.content.timestamp))) := by
    rw [rangeFold_results]
    simp
  refine ⟨?_, ?_, ?_⟩ <;>
    simp [verifyLogRange, hres, detailsSpec_length]

/-- An always-accepting RSA primitive (used where signature validity is not
at issue). -/
def alwaysValidRsa : RsaVerify := fun _ _ => .valid

/-- One well-formed persisted line for the C6 counterexample. -/
def ceEntry (lid : String) (seq : Int) (prev : Option String) (h : String) : FileLine :=
  .entry
    { content :=
        { log_id := lid, timestamp := "T", sequence := seq, action_type := "a",
          actor_id := "b", target := "c", result := "ok", details := .nil,
          context := .nil, previous_hash := prev },
      hash := h, signature := "aa" }

/-- Eleven chained entries whose eleventh has a tampered stored hash (under
the hash model `constHash`, the correct stored hash is `"H"`; entry `L11`
stores `"X"`). -/
def tamperedFile : List FileLine :=
  [ceEntry "L01" 1 none "H", ceEntry "L02" 2 (some "H") "H",
   ceEntry "L03" 3 (some "H") "H", ceEntry "L04" 4 (some "H") "H",
   ceEntry "L05" 5 (some "H") "H", ceEntry "L06" 6 (some "H") "H",
   ceEntry "L07" 7 (some "H") "H", ceEntry "L08" 8 (some "H") "H",
   ceEntry "L09" 9 (some "H") "H", ceEntry "L10" 10 (some "H") "H",
   ceEntry "L11" 11 (some "H") "X"]

/-- C6 counterexample: on a range of eleven entries whose eleventh has a
hash mismatch, the report says not everything verified, yet its
`verification_details` lists only the first ten results — all of them
verified.  The failing entry is examined (logs_verified = 11) but NOT
identified anywhere in the returned report, contradicting the claim that
the report identifies every entry whose hash does not match. -/
theorem verify_range_truncates_details :
    (verifyLogRange constHash alwaysValidRsa tamperedFile none none).all_verified = false ∧
    (verifyLogRange constHash alwaysValidRsa tamperedFile none none).logs_verified = 11 ∧
    (verifyLogRange constHash alwaysValidRsa tamperedFile none none).verification_details.length = 10 ∧
    (verifyLogRange constHash alwaysValidRsa tamperedFile none none).verification_details.all
      (fun d => d.verifiedFlag) = true := by
  exact ⟨rfl, rfl, rfl, rfl⟩

end AuditOrch
